import Mathlib

/-!
Verification of the lease lifecycle and rent-ledger reconciliation logic of the
LeaseLog backend (apps/leases and apps/payments).  The Python model methods and
view actions are embedded as pure Lean functions: Django `DecimalField` money
becomes `ℚ` (decimal arithmetic is exact), `datetime.date` becomes a
year/month/day structure with Python's lexicographic comparison and
`toordinal` day count, and each database-mutating operation becomes a function
from the old row(s) to the new row(s).
-/

namespace LeaseLog

/-- Monetary amount (`DecimalField`; decimal arithmetic is exact, so `ℚ`). -/
abbrev Money : Type := ℚ

/-- Calendar date in the proleptic Gregorian calendar, as Python `datetime.date`. -/
structure Date where
  year : Nat
  month : Nat
  day : Nat
deriving DecidableEq, Repr

/-- Gregorian leap-year test. -/
def isLeap (y : Nat) : Bool :=
  (y % 4 == 0 && y % 100 != 0) || y % 400 == 0

/-- Number of days in month `m` of year `y`. -/
def daysInMonth (y m : Nat) : Nat :=
  if m = 2 then (if isLeap y then 29 else 28)
  else if m = 4 ∨ m = 6 ∨ m = 9 ∨ m = 11 then 30
  else 31

/-- Days of year `y` that fall in months strictly before month `m`. -/
def daysBeforeMonth (y m : Nat) : Nat :=
  ((List.range (m - 1)).map (fun k => daysInMonth y (k + 1))).sum

/-- Python `date.toordinal`: day count from 0001-01-01 (= day 1). -/
def toOrdinal (d : Date) : Nat :=
  365 * (d.year - 1) + (d.year - 1) / 4 - (d.year - 1) / 100 + (d.year - 1) / 400
    + daysBeforeMonth d.year d.month + d.day

/-- Python date comparison `a <= b`: lexicographic on (year, month, day). -/
def dateLe (a b : Date) : Prop :=
  a.year < b.year ∨ (a.year = b.year ∧
    (a.month < b.month ∨ (a.month = b.month ∧ a.day ≤ b.day)))

instance (a b : Date) : Decidable (dateLe a b) := by
  unfold dateLe; infer_instance

/-- Python date comparison `a < b`: lexicographic on (year, month, day). -/
def dateLt (a b : Date) : Prop :=
  a.year < b.year ∨ (a.year = b.year ∧
    (a.month < b.month ∨ (a.month = b.month ∧ a.day < b.day)))

instance (a b : Date) : Decidable (dateLt a b) := by
  unfold dateLt; infer_instance

/-- `dateutil.relativedelta(months=1)` added to a date: advance one calendar
month, clamping the day to the length of the target month. -/
def addMonths1 (d : Date) : Date :=
  if d.month = 12 then
    ⟨d.year + 1, 1, min d.day (daysInMonth (d.year + 1) 1)⟩
  else
    ⟨d.year, d.month + 1, min d.day (daysInMonth d.year (d.month + 1))⟩

/-- Linear index of a calendar month (year, month) on the time line. -/
def monthIdx (d : Date) : Nat := 12 * d.year + d.month

/-- Iterated `addMonths1`: the date visited after `k` steps of the monthly walk. -/
def walkDate (d : Date) : Nat → Date
  | 0 => d
  | k + 1 => walkDate (addMonths1 d) k

/-- Lease status (`Lease.STATUS_CHOICES`). -/
inductive LeaseStatus
  | draft
  | pending
  | active
  | expired
  | terminated
  | renewed
deriving DecidableEq, Repr

/-- Late-fee policy type (`Lease.LATE_FEE_TYPE_CHOICES`). -/
inductive LateFeeType
  | fixed
  | percent
  | daily
deriving DecidableEq, Repr

/-- Rent payment status (`RentPayment.STATUS_CHOICES`); `partPaid` stands for
the source's `'partial'` choice and `waived` for `'waived'`. -/
inductive PaymentStatus
  | pending
  | partPaid
  | paid
  | overdue
  | waived
deriving DecidableEq, Repr

/-- Tenant status (`Tenant.STATUS_CHOICES`). -/
inductive TenantStatus
  | applicant
  | approved
  | active
  | past
  | rejected
deriving DecidableEq, Repr

/-- Unit status (`Unit.STATUS_CHOICES`). -/
inductive UnitStatus
  | occupied
  | vacant
  | maintenance
  | listed
deriving DecidableEq, Repr

/-- The fields of `leases.Lease` used by the rent-ledger core (term, rent,
late-fee policy, termination bookkeeping, and the foreign keys needed by the
terminate action; deposit/auto-renew/notes fields are not referenced by the
verified operations). -/
structure Lease where
  id : Nat
  tenant : Nat
  unit : Option Nat
  start_date : Date
  end_date : Date
  status : LeaseStatus
  rent_amount : Money
  rent_due_day : Nat
  late_fee_type : LateFeeType
  late_fee_amount : Money
  late_fee_grace_days : Nat
  terminated_date : Option Date := none
  termination_reason : String := ""
deriving DecidableEq

/-- A row of `tenants.Tenant` (only the fields the terminate action touches). -/
structure Tenant where
  id : Nat
  status : TenantStatus
deriving DecidableEq

/-- A row of `properties.Unit` (only the fields the terminate action touches). -/
structure Unit where
  id : Nat
  status : UnitStatus
deriving DecidableEq

/-- A row of `payments.PaymentRecord` (the fields its `save` hook reads). -/
structure PaymentRecord where
  amount : Money
  payment_date : Date
deriving DecidableEq

/-- A row of `payments.RentPayment`, carrying its related `payment_records`
(the reverse foreign key the `save` hook aggregates over).  Field defaults are
the Django column defaults. -/
structure RentPayment where
  due_date : Date
  amount_due : Money
  amount_paid : Money := 0
  status : PaymentStatus := .pending
  late_fee_applied : Money := 0
  late_fee_waived : Bool := false
  late_fee_waived_reason : String := ""
  paid_date : Option Date := none
  payment_records : List PaymentRecord := []
deriving DecidableEq

/-- Sum of the `amount` column over a list of payment records. -/
def sumAmounts (rs : List PaymentRecord) : Money :=
  (rs.map (fun r => r.amount)).sum

/-- The `RentPayment.balance_due` property. -/
def RentPayment.balance_due (rp : RentPayment) : Money :=
  rp.amount_due + rp.late_fee_applied - rp.amount_paid

/-- `PaymentRecord.save`: insert the record, then recompute the parent
`RentPayment`'s `amount_paid` as the sum over all its records and update
`status`/`paid_date` (models.py lines 127-140). -/
def PaymentRecord.save (r : PaymentRecord) (rp : RentPayment) : RentPayment :=
  let records := rp.payment_records ++ [r]
  let total_paid := sumAmounts records
  let rp1 := { rp with payment_records := records, amount_paid := total_paid }
  if rp1.amount_due + rp1.late_fee_applied ≤ total_paid then
    { rp1 with status := .paid, paid_date := some r.payment_date }
  else if 0 < total_paid then
    { rp1 with status := .partPaid }
  else
    rp1

/-- Iterate `PaymentRecord.save` over a finite sequence of insertions. -/
def applyRecords (rp : RentPayment) (rs : List PaymentRecord) : RentPayment :=
  rs.foldl (fun s r => r.save s) rp

/-- `RentPayment.apply_late_fee` (models.py lines 65-81); `today` embeds
`timezone.now().date()`, and Python's `(today - due_date).days` is the
difference of the two dates' ordinals. -/
def RentPayment.apply_late_fee (rp : RentPayment) (lease : Lease) (today : Date) :
    RentPayment :=
  if 0 < rp.late_fee_applied ∨ rp.late_fee_waived then rp
  else
    match lease.late_fee_type with
    | .fixed => { rp with late_fee_applied := lease.late_fee_amount }
    | .percent =>
        { rp with late_fee_applied := rp.amount_due * (lease.late_fee_amount / 100) }
    | .daily =>
        let days_late : Int :=
          (toOrdinal today : Int) - (toOrdinal rp.due_date : Int)
            - (lease.late_fee_grace_days : Int)
        if 0 < days_late then
          { rp with late_fee_applied := lease.late_fee_amount * (days_late : Money) }
        else rp

/-- The body of `RentPaymentViewSet.waive_late_fee` applied to the row
(views.py lines 147-162): set the waived flag and reason, zero the fee. -/
def RentPayment.waive_late_fee (rp : RentPayment) (reason : String) : RentPayment :=
  { rp with late_fee_waived := true, late_fee_waived_reason := reason,
            late_fee_applied := 0 }

/-- Response envelope of the `waive_late_fee` view. -/
structure WaiveResponse where
  success : Bool
  http_status : Nat
  payment : RentPayment
deriving DecidableEq

/-- `RentPaymentViewSet.waive_late_fee`: unconditionally waives and answers
`{'success': True}` with HTTP 200. -/
def waiveLateFeeView (rp : RentPayment) (reason : String) : WaiveResponse :=
  { success := true, http_status := 200, payment := rp.waive_late_fee reason }

/-- One row's worth of the `update_overdue_payment_status` task (tasks.py):
pending rows past their due date on an active, non-deleted lease move to
`overdue`. -/
def update_overdue_payment_status (today : Date) (leaseStatus : LeaseStatus)
    (leaseDeleted : Bool) (rp : RentPayment) : RentPayment :=
  if rp.status = .pending ∧ dateLt rp.due_date today ∧ leaseStatus = .active ∧
      leaseDeleted = false then
    { rp with status := .overdue }
  else rp

/-- The fresh row `get_or_create` builds for a due date: the `defaults` plus
the Django column defaults. -/
def mkPendingRow (l : Lease) (due : Date) : RentPayment :=
  { due_date := due, amount_due := l.rent_amount, status := .pending }

/-- `RentPayment.objects.get_or_create(lease=self, due_date=due_date, ...)`
against the lease's rows: create the row only when no row with that due date
exists. -/
def getOrCreate (l : Lease) (db : List RentPayment) (due : Date) : List RentPayment :=
  if db.any (fun r => r.due_date == due) then db else db ++ [mkPendingRow l due]

/-- The `while current_date <= end_date` loop of `generate_rent_schedule`,
with explicit fuel (the loop advances one calendar month per iteration, so
the month count of the term bounds the iterations).  The due day is clamped
to `min(rent_due_day, 28)`, which always exists in any month, so the
source's `ValueError` fallback to day 28 is unreachable. -/
def scheduleLoop (l : Lease) : Nat → Date → List RentPayment → List RentPayment
  | 0, _, db => db
  | fuel + 1, cur, db =>
      if dateLe cur l.end_date then
        let due : Date := ⟨cur.year, cur.month, min l.rent_due_day 28⟩
        let db1 :=
          if dateLe l.start_date due ∧ dateLe due l.end_date then
            getOrCreate l db due
          else db
        scheduleLoop l fuel (addMonths1 cur) db1
      else db

/-- `Lease.generate_rent_schedule` (leases/models.py lines 107-143) acting on
the lease's current `RentPayment` rows: only runs for `active`/`pending`
leases, first deletes the rows still in status `pending`, then walks monthly
from `start_date`. -/
def Lease.generate_rent_schedule (l : Lease) (db : List RentPayment) :
    List RentPayment :=
  if l.status = .active ∨ l.status = .pending then
    scheduleLoop l (monthIdx l.end_date + 1 - monthIdx l.start_date) l.start_date
      (db.filter (fun r => decide (r.status ≠ .pending)))
  else db

/-- Response envelope of the lease `terminate` action. -/
structure TerminateResponse where
  success : Bool
  http_status : Nat
  error_code : Option String
  lease : Lease
  tenant : Tenant
  unit : Option Unit
deriving DecidableEq

/-- `LeaseViewSet.terminate` (leases/views.py lines 99-131): reject non-active
leases with a structured 400 error and no mutation; otherwise mark the lease
terminated, move the tenant to `past` when no other active lease of that
tenant exists in `allLeases` (the lease table, queried with
`.exclude(id=lease.id)`), and vacate the referenced unit. -/
def terminate (lease : Lease) (tenant : Tenant) (unit : Option Unit)
    (allLeases : List Lease) (termination_date : Date) (reason : String) :
    TerminateResponse :=
  if lease.status ≠ .active then
    { success := false, http_status := 400, error_code := some "INVALID_STATUS",
      lease := lease, tenant := tenant, unit := unit }
  else
    let lease1 :=
      { lease with
          status := .terminated,
          terminated_date := some termination_date,
          termination_reason := reason }
    let hasOther := allLeases.any (fun l2 =>
      l2.tenant == lease.tenant && decide (l2.status = .active) && l2.id != lease.id)
    let tenant1 := if hasOther then tenant else { tenant with status := .past }
    let unit1 := unit.map (fun u => { u with status := .vacant })
    { success := true, http_status := 200, error_code := none,
      lease := lease1, tenant := tenant1, unit := unit1 }

/-- One iteration of the schedule loop, seen as an optional created row: the
row the walk creates at `cur` when the loop is still running and the clamped
due date falls inside the term. -/
def scheduleStep (l : Lease) (cur : Date) : Option RentPayment :=
  if dateLe cur l.end_date then
    if dateLe l.start_date ⟨cur.year, cur.month, min l.rent_due_day 28⟩ ∧
        dateLe (⟨cur.year, cur.month, min l.rent_due_day 28⟩ : Date) l.end_date then
      some (mkPendingRow l ⟨cur.year, cur.month, min l.rent_due_day 28⟩)
    else none
  else none

/-- Closed-form description of a schedule run on an empty table: enumerate the
monthly walk dates from `start_date`, one per calendar month of the term, and
keep the rows whose clamped due date lies within the term. -/
def scheduleSpec (l : Lease) : List RentPayment :=
  (List.range (monthIdx l.end_date + 1 - monthIdx l.start_date)).filterMap
    (fun k => scheduleStep l (walkDate l.start_date k))

/-- The spec's schedule example: rent 1000/month, due day 1, term
2024-01-01 to 2024-03-31, active. -/
def exLease : Lease :=
  { id := 1, tenant := 1, unit := none,
    start_date := ⟨2024, 1, 1⟩, end_date := ⟨2024, 3, 31⟩,
    status := .active, rent_amount := 1000, rent_due_day := 1,
    late_fee_type := .fixed, late_fee_amount := 50, late_fee_grace_days := 5 }

/-- Same lease but starting mid-month (2024-01-15), so the January due date
(2024-01-01) falls before `start_date`. -/
def exL3 : Lease := { exLease with start_date := ⟨2024, 1, 15⟩ }

/-- Same lease in status `draft`. -/
def leaseDraft : Lease := { exLease with status := .draft }

/-- A fixed-fee lease (`late_fee_type = 'fixed'`, amount 50). -/
def leaseF : Lease := exLease

/-- A daily-fee lease: `late_fee_type = 'daily'`, amount 10, grace 5 days. -/
def leaseD : Lease := { exLease with late_fee_type := .daily, late_fee_amount := 10 }

/-- A fresh rent payment: amount due 1000, no fee, no records. -/
def p0 : RentPayment := { due_date := ⟨2024, 1, 1⟩, amount_due := 1000 }

/-- A fresh rent payment due 2024-03-01 (for the daily-fee example). -/
def rpD : RentPayment := { due_date := ⟨2024, 3, 1⟩, amount_due := 1000 }

/-- `rpD` with a fee of 50 already applied. -/
def rpFee50 : RentPayment := { rpD with late_fee_applied := 50 }

/-- Payment record of 400 on 2024-01-05. -/
def r400 : PaymentRecord := ⟨400, ⟨2024, 1, 5⟩⟩

/-- Payment record of 600 on 2024-01-20. -/
def r600 : PaymentRecord := ⟨600, ⟨2024, 1, 20⟩⟩

/-- `p0` paid in full by a single record of 1000. -/
def q1 : RentPayment := PaymentRecord.save ⟨1000, ⟨2024, 1, 2⟩⟩ p0

/-- `q1` after the fixed late fee of 50 is applied. -/
def q2 : RentPayment := q1.apply_late_fee leaseF ⟨2024, 1, 10⟩

/-- `q2` after a further record of 10 is saved. -/
def q3 : RentPayment := PaymentRecord.save ⟨10, ⟨2024, 1, 12⟩⟩ q2

/-- `p0` overpaid by a single record of 1100. -/
def ov : RentPayment := PaymentRecord.save ⟨1100, ⟨2024, 1, 2⟩⟩ p0

/-- A rent payment that is exactly paid, with its record list attached. -/
def qW : RentPayment :=
  { due_date := ⟨2024, 1, 1⟩, amount_due := 1000, amount_paid := 1000,
    status := .paid, paid_date := some ⟨2024, 1, 2⟩,
    payment_records := [⟨1000, ⟨2024, 1, 2⟩⟩] }

/-- A tenant fixture. -/
def t0 : Tenant := { id := 1, status := .active }

/-! ### Helper lemmas -/

/-- After any `PaymentRecord.save`, the stored `amount_paid` is the sum of the
attached records, whatever the previous state was. -/
lemma save_amount_paid (r : PaymentRecord) (rp : RentPayment) :
    (r.save rp).amount_paid = sumAmounts (r.save rp).payment_records := by
  unfold PaymentRecord.save
  dsimp only
  split
  · rfl
  · split <;> rfl

/-- The records attached after a save are the old ones with the new one
appended. -/
lemma save_records (r : PaymentRecord) (rp : RentPayment) :
    (r.save rp).payment_records = rp.payment_records ++ [r] := by
  unfold PaymentRecord.save
  dsimp only
  split
  · rfl
  · split <;> rfl

/-- Sum of amounts over an appended single record. -/
lemma sumAmounts_append (rs : List PaymentRecord) (r : PaymentRecord) :
    sumAmounts (rs ++ [r]) = sumAmounts rs + r.amount := by
  simp [sumAmounts]

/-- `apply_late_fee` never changes the status field. -/
lemma apply_late_fee_status (rp : RentPayment) (lease : Lease) (today : Date) :
    (rp.apply_late_fee lease today).status = rp.status := by
  unfold RentPayment.apply_late_fee
  split
  · rfl
  · split <;> first | rfl | (dsimp only; split <;> rfl)

/-- `apply_late_fee` is the identity once a positive fee exists or the fee is
waived (the guard at the top of the method). -/
lemma apply_late_fee_noop (rp : RentPayment) (lease : Lease) (today : Date)
    (h : 0 < rp.late_fee_applied ∨ rp.late_fee_waived = true) :
    rp.apply_late_fee lease today = rp := by
  unfold RentPayment.apply_late_fee
  rw [if_pos]
  simpa using h

/-- Every row of a schedule-loop result is either an input row or a freshly
created `pending` row. -/
lemma mem_scheduleLoop (l : Lease) :
    ∀ (fuel : Nat) (cur : Date) (db : List RentPayment) (s : RentPayment),
      s ∈ scheduleLoop l fuel cur db → s ∈ db ∨ s.status = .pending := by
  intro fuel
  induction fuel with
  | zero =>
    intro cur db s hs
    exact Or.inl (by simpa [scheduleLoop] using hs)
  | succ n ih =>
    intro cur db s hs
    simp only [scheduleLoop] at hs
    split at hs
    · rcases ih _ _ _ hs with h | h
      · split at h
        · unfold getOrCreate at h
          split at h
          · exact Or.inl h
          · rcases List.mem_append.mp h with h2 | h2
            · exact Or.inl h2
            · right
              rw [List.mem_singleton.mp h2]
              rfl
        · exact Or.inl h
      · exact Or.inr h
    · exact Or.inl hs

/-! ### C1: amount_paid equals the sum of the attached records -/

/-- C1: for every rent payment whose stored `amount_paid` matches its records
(e.g. a freshly created row), after any finite sequence of `PaymentRecord`
insertions (each running the `save` recompute), the stored `amount_paid`
equals exactly the sum of the amounts of all attached records. -/
theorem c1_amount_paid_is_sum_of_records (rp : RentPayment)
    (rs : List PaymentRecord)
    (h : rp.amount_paid = sumAmounts rp.payment_records) :
    (applyRecords rp rs).amount_paid
      = sumAmounts (applyRecords rp rs).payment_records := by
  induction rs generalizing rp with
  | nil => exact h
  | cons r rs ih => exact ih (r.save rp) (save_amount_paid r rp)

/-- Witness for C1 at the fresh payment `p0` and one insertion of 400. -/
theorem c1_amount_paid_witness :
    (applyRecords p0 [r400]).amount_paid
      = sumAmounts (applyRecords p0 [r400]).payment_records :=
  c1_amount_paid_is_sum_of_records p0 [r400] rfl

/-! ### C2: status transitions on payment recording -/

/-- C2: after saving a new `PaymentRecord`, with `total` the recomputed sum of
all attached records: `total ≥ amount_due + late_fee_applied` yields status
`paid` with `paid_date` the triggering record's date; `0 < total <
amount_due + late_fee_applied` yields `partial`; `total = 0` leaves the status
unchanged; and the recorded `amount_paid` is `total`.  The spec's example:
due 1000, fee 0; recording 400 gives `partial`/400/balance 600, then
recording 600 gives `paid` with `paid_date` the second record's date. -/
theorem c2_payment_recording_transitions :
    (∀ (rp : RentPayment) (r : PaymentRecord),
      (rp.amount_due + rp.late_fee_applied ≤ sumAmounts (rp.payment_records ++ [r]) →
        (r.save rp).status = .paid ∧ (r.save rp).paid_date = some r.payment_date) ∧
      (0 < sumAmounts (rp.payment_records ++ [r]) →
        sumAmounts (rp.payment_records ++ [r]) < rp.amount_due + rp.late_fee_applied →
        (r.save rp).status = .partPaid) ∧
      (0 < r.amount → (∀ pr ∈ rp.payment_records, 0 ≤ pr.amount) →
        sumAmounts (rp.payment_records ++ [r]) = 0 →
        (r.save rp).status = rp.status ∧ (r.save rp).paid_date = rp.paid_date) ∧
      (r.save rp).amount_paid = sumAmounts (rp.payment_records ++ [r])) ∧
    ((r400.save p0).status = .partPaid ∧
      (r400.save p0).amount_paid = 400 ∧
      (r400.save p0).balance_due = 600 ∧
      (r600.save (r400.save p0)).status = .paid ∧
      (r600.save (r400.save p0)).paid_date = some ⟨2024, 1, 20⟩) := by
  constructor
  · intro rp r
    unfold PaymentRecord.save
    dsimp only
    refine ⟨fun hge => ?_, fun hpos hlt => ?_, fun hr hpr hz => ?_, ?_⟩
    · rw [if_pos hge]
      exact ⟨rfl, rfl⟩
    · rw [if_neg (by exact not_le.mpr hlt), if_pos hpos]
    · exfalso
      have h1 : 0 ≤ sumAmounts rp.payment_records := by
        refine List.sum_nonneg ?_
        intro x hx
        obtain ⟨pr, hpr2, rfl⟩ := List.mem_map.mp hx
        exact hpr pr hpr2
      rw [sumAmounts_append] at hz
      linarith
    · split
      · rfl
      · split <;> rfl
  · refine ⟨?_, ?_, ?_, ?_, ?_⟩ <;>
      norm_num [PaymentRecord.save, RentPayment.balance_due, sumAmounts, p0, r400, r600]

/-- Witness for C2: the paid branch at `p0` with a single record of 1000. -/
theorem c2_payment_recording_witness :
    (PaymentRecord.save ⟨1000, ⟨2024, 1, 2⟩⟩ p0).status = .paid ∧
    (PaymentRecord.save ⟨1000, ⟨2024, 1, 2⟩⟩ p0).paid_date = some ⟨2024, 1, 2⟩ :=
  (c2_payment_recording_transitions.1 p0 ⟨1000, ⟨2024, 1, 2⟩⟩).1
    (by simp [p0, sumAmounts])

/-! ### C4: late-fee policy computation -/

/-- C4: on a payment with zero fee and no waiver, `apply_late_fee` follows the
lease's policy: `fixed` applies `late_fee_amount` verbatim; `percent` applies
`amount_due * (late_fee_amount / 100)`; `daily` applies
`late_fee_amount * days_late` with `days_late = (today - due_date).days -
grace_days` when positive, and otherwise leaves the fee at zero.  The spec's
example: daily, amount 10, grace 5, 20 days overdue gives a fee of 150. -/
theorem c4_late_fee_policy (lease : Lease) (rp : RentPayment) (today : Date)
    (h0 : rp.late_fee_applied = 0) (h1 : rp.late_fee_waived = false) :
    (lease.late_fee_type = .fixed →
      (rp.apply_late_fee lease today).late_fee_applied = lease.late_fee_amount) ∧
    (lease.late_fee_type = .percent →
      (rp.apply_late_fee lease today).late_fee_applied
        = rp.amount_due * (lease.late_fee_amount / 100)) ∧
    (lease.late_fee_type = .daily →
      (0 < (toOrdinal today : Int) - (toOrdinal rp.due_date : Int)
          - (lease.late_fee_grace_days : Int) →
        (rp.apply_late_fee lease today).late_fee_applied
          = lease.late_fee_amount *
              (((toOrdinal today : Int) - (toOrdinal rp.due_date : Int)
                - (lease.late_fee_grace_days : Int) : Int) : Money)) ∧
      ((toOrdinal today : Int) - (toOrdinal rp.due_date : Int)
          - (lease.late_fee_grace_days : Int) ≤ 0 →
        (rp.apply_late_fee lease today).late_fee_applied = 0)) ∧
    (rpD.apply_late_fee leaseD ⟨2024, 3, 21⟩).late_fee_applied = 150 := by
  have hguard : ¬ (0 < rp.late_fee_applied ∨ rp.late_fee_waived = true) := by
    rw [h0, h1]
    simp
  refine ⟨fun ht => ?_, fun ht => ?_, fun ht => ⟨fun hd => ?_, fun hd => ?_⟩, ?_⟩
  · unfold RentPayment.apply_late_fee
    rw [if_neg (by simpa using hguard), ht]
  · unfold RentPayment.apply_late_fee
    rw [if_neg (by simpa using hguard), ht]
  · unfold RentPayment.apply_late_fee
    rw [if_neg (by simpa using hguard), ht]
    dsimp only
    rw [if_pos hd]
  · unfold RentPayment.apply_late_fee
    rw [if_neg (by simpa using hguard), ht]
    dsimp only
    rw [if_neg (not_lt.mpr hd)]
    exact h0
  · norm_num [RentPayment.apply_late_fee, rpD, leaseD, exLease, toOrdinal,
      daysBeforeMonth, daysInMonth, isLeap]

/-- Witness for C4: the fixed branch on `rpD` under `leaseF`. -/
theorem c4_late_fee_witness :
    (rpD.apply_late_fee leaseF ⟨2024, 3, 21⟩).late_fee_applied
      = leaseF.late_fee_amount :=
  (c4_late_fee_policy leaseF rpD ⟨2024, 3, 21⟩ rfl rfl).1 rfl

/-! ### C5: a late fee is applied at most once -/

/-- C5: on a payment with a positive fee or a waived fee, `apply_late_fee`
leaves every field unchanged; hence a second application after a first
nonzero application is a no-op, and after a waiver the evaluator never
re-applies a fee (the row stays exactly the waived row, fee 0). -/
theorem c5_late_fee_at_most_once (lease : Lease) (rp : RentPayment)
    (today : Date)
    (h : 0 < rp.late_fee_applied ∨ rp.late_fee_waived = true) :
    rp.apply_late_fee lease today = rp ∧
    (∀ (l2 : Lease) (s : RentPayment) (t1 t2 : Date),
      0 < (s.apply_late_fee l2 t1).late_fee_applied →
      (s.apply_late_fee l2 t1).apply_late_fee l2 t2 = s.apply_late_fee l2 t1) ∧
    (∀ (l2 : Lease) (s : RentPayment) (reason : String) (t : Date),
      (s.waive_late_fee reason).apply_late_fee l2 t = s.waive_late_fee reason ∧
      ((s.waive_late_fee reason).apply_late_fee l2 t).late_fee_applied = 0) := by
  refine ⟨apply_late_fee_noop rp lease today h, fun l2 s t1 t2 h2 => ?_,
    fun l2 s reason t => ?_⟩
  · exact apply_late_fee_noop _ l2 t2 (Or.inl h2)
  · have hw : (s.waive_late_fee reason).late_fee_waived = true := rfl
    have he := apply_late_fee_noop (s.waive_late_fee reason) l2 t (Or.inr hw)
    exact ⟨he, by rw [he]; rfl⟩

/-- Witness for C5 at a payment that already carries a fee of 50. -/
theorem c5_late_fee_witness :
    rpFee50.apply_late_fee leaseF ⟨2024, 3, 21⟩ = rpFee50 :=
  (c5_late_fee_at_most_once leaseF rpFee50 ⟨2024, 3, 21⟩
    (Or.inl (by decide))).1

/-! ### C7: persistence of the paid status -/

/-- C7 counterexample: `p0` (due 1000, fee 0) is fully paid by `q1`
(`amount_paid = 1000 ≥ amount_due + late_fee_applied`, status `paid`); the
core operations "apply the fixed late fee of 50" and then "record a further
payment of 10" — with no explicit status reset — leave the row in status
`partial`, not `paid`. -/
theorem c7_paid_not_sticky_counterexample :
    q1.amount_due + q1.late_fee_applied ≤ q1.amount_paid ∧
    q1.status = .paid ∧
    q3.status = .partPaid ∧
    q3.status ≠ .paid := by
  have h3 : q3.status = .partPaid := by
    norm_num [q3, q2, q1, p0, PaymentRecord.save, sumAmounts,
      RentPayment.apply_late_fee, leaseF, exLease]
  refine ⟨?_, ?_, h3, by rw [h3]; decide⟩ <;>
    norm_num [q1, p0, PaymentRecord.save, sumAmounts]

/-- C7 (amended): once `amount_paid ≥ amount_due + late_fee_applied`, status
`paid`, and `amount_paid` equal to the sum of the attached records, the
status stays `paid` under a further payment recording of nonnegative amount,
and late-fee application and fee waiving never change the status of any row;
the exception forced by the counterexample is a fee application that raises
the threshold above `amount_paid` followed by a further recording. -/
theorem c7_paid_stays_paid_amended (lease : Lease) (rp : RentPayment)
    (today : Date) (r : PaymentRecord) (reason : String)
    (hinv : rp.amount_paid = sumAmounts rp.payment_records)
    (hpaid : rp.status = .paid)
    (hcov : rp.amount_due + rp.late_fee_applied ≤ rp.amount_paid)
    (hr : 0 ≤ r.amount) :
    (r.save rp).status = .paid ∧
    (rp.apply_late_fee lease today).status = .paid ∧
    (rp.waive_late_fee reason).status = .paid := by
  refine ⟨?_, ?_, ?_⟩
  · have hge : rp.amount_due + rp.late_fee_applied
        ≤ sumAmounts (rp.payment_records ++ [r]) := by
      rw [sumAmounts_append, ← hinv]
      linarith
    unfold PaymentRecord.save
    dsimp only
    rw [if_pos hge]
  · rw [apply_late_fee_status, hpaid]
  · rw [show (rp.waive_late_fee reason).status = rp.status from rfl, hpaid]

/-- Witness for C7 (amended) at the exactly-paid payment `qW`. -/
theorem c7_paid_witness :
    (r400.save qW).status = .paid ∧
    (qW.apply_late_fee leaseF ⟨2024, 2, 1⟩).status = .paid ∧
    (qW.waive_late_fee "goodwill").status = .paid :=
  c7_paid_stays_paid_amended leaseF qW ⟨2024, 2, 1⟩ r400 "goodwill"
    (by simp [qW, sumAmounts]) rfl (by simp [qW]) (by decide)

/-! ### C8: sign of the balance in the paid state -/

/-- C8 counterexample: overpaying `p0` (due 1000, fee 0) with a single record
of 1100 puts the row in status `paid` with `balance_due = -100 < 0`, so the
claimed invariant `balance_due ≥ 0` in the paid state fails. -/
theorem c8_balance_counterexample :
    ov.status = .paid ∧ ov.balance_due < 0 := by
  constructor <;>
    norm_num [ov, p0, PaymentRecord.save, sumAmounts, RentPayment.balance_due]

/-- C8 (amended): in the paid state the balance is non-positive, not
non-negative: a recording with positive total that results in status `paid`
leaves `balance_due ≤ 0`; waiving a nonnegative fee never increases the
balance and keeps the status; and a further recording of a nonnegative
amount never increases the balance. -/
theorem c8_balance_amended :
    (∀ (rp : RentPayment) (r : PaymentRecord),
      0 < sumAmounts (rp.payment_records ++ [r]) →
      (r.save rp).status = .paid → (r.save rp).balance_due ≤ 0) ∧
    (∀ (rp : RentPayment) (reason : String),
      0 ≤ rp.late_fee_applied →
      (rp.waive_late_fee reason).balance_due ≤ rp.balance_due ∧
      (rp.waive_late_fee reason).status = rp.status) ∧
    (∀ (rp : RentPayment) (r : PaymentRecord),
      rp.amount_paid = sumAmounts rp.payment_records → 0 ≤ r.amount →
      (r.save rp).balance_due ≤ rp.balance_due) := by
  refine ⟨fun rp r hpos => ?_, fun rp reason hfee => ?_, fun rp r hinv hr => ?_⟩
  · intro hst
    unfold PaymentRecord.save at hst ⊢
    unfold RentPayment.balance_due
    dsimp only at hst ⊢
    by_cases hge : rp.amount_due + rp.late_fee_applied
        ≤ sumAmounts (rp.payment_records ++ [r])
    · rw [if_pos hge]
      dsimp only
      linarith
    · rw [if_neg hge, if_pos hpos] at hst
      simp at hst
  · refine ⟨?_, rfl⟩
    unfold RentPayment.waive_late_fee RentPayment.balance_due
    dsimp only
    linarith
  · have hsum : sumAmounts (rp.payment_records ++ [r])
        = rp.amount_paid + r.amount := by rw [sumAmounts_append, hinv]
    unfold PaymentRecord.save RentPayment.balance_due
    dsimp only
    by_cases hge : rp.amount_due + rp.late_fee_applied
        ≤ sumAmounts (rp.payment_records ++ [r])
    · rw [if_pos hge]
      dsimp only
      linarith
    · by_cases hpos2 : 0 < sumAmounts (rp.payment_records ++ [r])
      · rw [if_neg hge, if_pos hpos2]
        dsimp only
        linarith
      · rw [if_neg hge, if_neg hpos2]
        dsimp only
        linarith

/-- Witness for C8 (amended): waiving the fee of `rpFee50` does not increase
the balance and keeps the status. -/
theorem c8_balance_witness :
    (rpFee50.waive_late_fee "hardship").balance_due ≤ rpFee50.balance_due ∧
    (rpFee50.waive_late_fee "hardship").status = rpFee50.status :=
  c8_balance_amended.2.1 rpFee50 "hardship" (by decide)

/-! ### C9: the terminate action -/

/-- C9: terminating a non-active lease answers `{success: false,
error: {code: INVALID_STATUS}}` with HTTP 400 and mutates nothing; on an
active lease the response is successful, the lease becomes `terminated` with
the given date and reason, the tenant is moved to `past` exactly when no
other active lease of that tenant exists, and a referenced unit becomes
`vacant` (an absent unit stays absent). -/
theorem c9_terminate_contract (lease : Lease) (tenant : Tenant)
    (unit : Option Unit) (db : List Lease) (d : Date) (reason : String) :
    (lease.status ≠ .active →
      terminate lease tenant unit db d reason =
        { success := false, http_status := 400,
          error_code := some "INVALID_STATUS",
          lease := lease, tenant := tenant, unit := unit }) ∧
    (lease.status = .active →
      (terminate lease tenant unit db d reason).success = true ∧
      (terminate lease tenant unit db d reason).http_status = 200 ∧
      (terminate lease tenant unit db d reason).lease.status = .terminated ∧
      (terminate lease tenant unit db d reason).lease.terminated_date = some d ∧
      (terminate lease tenant unit db d reason).lease.termination_reason = reason ∧
      ((¬ ∃ l2 ∈ db, l2.tenant = lease.tenant ∧ l2.status = .active ∧
          l2.id ≠ lease.id) →
        (terminate lease tenant unit db d reason).tenant.status = .past) ∧
      ((∃ l2 ∈ db, l2.tenant = lease.tenant ∧ l2.status = .active ∧
          l2.id ≠ lease.id) →
        (terminate lease tenant unit db d reason).tenant = tenant) ∧
      (∀ u, unit = some u →
        (terminate lease tenant unit db d reason).unit
          = some { u with status := .vacant }) ∧
      (unit = none → (terminate lease tenant unit db d reason).unit = none)) := by
  constructor
  · intro h
    unfold terminate
    rw [if_pos h]
  · intro h
    have hg : ¬ lease.status ≠ LeaseStatus.active := by simp [h]
    have hany : (db.any (fun l2 =>
        l2.tenant == lease.tenant && decide (l2.status = .active) &&
          l2.id != lease.id) = true)
        ↔ ∃ l2 ∈ db, l2.tenant = lease.tenant ∧ l2.status = .active ∧
            l2.id ≠ lease.id := by
      simp [List.any_eq_true, and_assoc]
    unfold terminate
    rw [if_neg hg]
    dsimp only
    refine ⟨rfl, rfl, rfl, rfl, rfl, fun hno => ?_, fun hyes => ?_,
      fun u hu => ?_, fun hu => ?_⟩
    · rw [if_neg (by rw [hany]; exact hno)]
    · rw [if_pos (hany.mpr hyes)]
    · rw [hu]
      rfl
    · rw [hu]
      rfl

/-- Witness for C9: the reject branch on a draft lease, and the success
branch on the active `exLease` with no other leases. -/
theorem c9_terminate_witness :
    terminate leaseDraft t0 none [] ⟨2024, 2, 1⟩ "left" =
      { success := false, http_status := 400,
        error_code := some "INVALID_STATUS",
        lease := leaseDraft, tenant := t0, unit := none } ∧
    (terminate exLease t0 none [] ⟨2024, 2, 1⟩ "left").lease.status
      = .terminated ∧
    (terminate exLease t0 none [] ⟨2024, 2, 1⟩ "left").tenant.status = .past :=
  ⟨(c9_terminate_contract leaseDraft t0 none [] ⟨2024, 2, 1⟩ "left").1
      (by decide),
   ((c9_terminate_contract exLease t0 none [] ⟨2024, 2, 1⟩ "left").2 rfl).2.2.1,
   (((c9_terminate_contract exLease t0 none [] ⟨2024, 2, 1⟩ "left").2
      rfl).2.2.2.2.2.1) (by simp)⟩

/-! ### C10: the waive action's frame, and the unused `waived` status -/

/-- C10: `waive_late_fee` succeeds unconditionally (HTTP 200, success true)
for a row in any state, touches only `late_fee_waived`,
`late_fee_waived_reason` and `late_fee_applied`, and leaves `amount_due`,
`amount_paid`, `paid_date` and `status` (and the due date and records)
unchanged; moreover no modelled operation ever assigns the declared status
value `waived`: payment recording only ever writes `paid`/`partial`,
fee application and waiving keep the status, the overdue sweep writes only
`overdue`, and schedule generation only creates `pending` rows. -/
theorem c10_waive_frame (rp : RentPayment) (reason : String) :
    (waiveLateFeeView rp reason).success = true ∧
    (waiveLateFeeView rp reason).http_status = 200 ∧
    (waiveLateFeeView rp reason).payment = rp.waive_late_fee reason ∧
    (rp.waive_late_fee reason).late_fee_waived = true ∧
    (rp.waive_late_fee reason).late_fee_waived_reason = reason ∧
    (rp.waive_late_fee reason).late_fee_applied = 0 ∧
    (rp.waive_late_fee reason).amount_due = rp.amount_due ∧
    (rp.waive_late_fee reason).amount_paid = rp.amount_paid ∧
    (rp.waive_late_fee reason).paid_date = rp.paid_date ∧
    (rp.waive_late_fee reason).status = rp.status ∧
    (rp.waive_late_fee reason).due_date = rp.due_date ∧
    (rp.waive_late_fee reason).payment_records = rp.payment_records ∧
    (∀ (r : PaymentRecord) (s : RentPayment),
      (r.save s).status = .waived → s.status = .waived) ∧
    (∀ (l : Lease) (s : RentPayment) (t : Date),
      (s.apply_late_fee l t).status = s.status) ∧
    (∀ (t : Date) (ls : LeaseStatus) (del : Bool) (s : RentPayment),
      (update_overdue_payment_status t ls del s).status = .waived →
        s.status = .waived) ∧
    (∀ (l : Lease) (db : List RentPayment) (s : RentPayment),
      s ∈ l.generate_rent_schedule db → s.status = .waived → s ∈ db) := by
  refine ⟨rfl, rfl, rfl, rfl, rfl, rfl, rfl, rfl, rfl, rfl, rfl, rfl,
    fun r s hs => ?_, fun l s t => apply_late_fee_status s l t,
    fun t ls del s hs => ?_, fun l db s hmem hs => ?_⟩
  · unfold PaymentRecord.save at hs
    dsimp only at hs
    by_cases hge : s.amount_due + s.late_fee_applied
        ≤ sumAmounts (s.payment_records ++ [r])
    · rw [if_pos hge] at hs
      exact absurd hs (by simp)
    · by_cases hpos : 0 < sumAmounts (s.payment_records ++ [r])
      · rw [if_neg hge, if_pos hpos] at hs
        exact absurd hs (by simp)
      · rw [if_neg hge, if_neg hpos] at hs
        exact hs
  · unfold update_overdue_payment_status at hs
    split at hs
    · exact absurd hs (by simp)
    · exact hs
  · unfold Lease.generate_rent_schedule at hmem
    split at hmem
    · rcases mem_scheduleLoop l _ _ _ s hmem with h | h
      · exact List.mem_of_mem_filter h
      · rw [hs] at h
        exact absurd h (by simp)
    · exact hmem

/-- Witness for C10 at the fresh payment `p0`. -/
theorem c10_waive_witness :
    (waiveLateFeeView p0 "court order").success = true ∧
    (p0.waive_late_fee "court order").status = p0.status :=
  ⟨(c10_waive_frame p0 "court order").1,
   (c10_waive_frame p0 "court order").2.2.2.2.2.2.2.2.2.1⟩

/-! ### Helper lemmas for the schedule generator -/

/-- Peeling `List.range` from the front. -/
lemma range_succ_shift (n : Nat) :
    List.range (n + 1) = 0 :: (List.range n).map (· + 1) := by
  rw [List.range_eq_range', List.range'_succ, List.range_eq_range']
  have h := List.map_add_range' 1 0 n 1
  rw [← h]
  exact congrArg (0 :: ·) (List.map_congr_left fun x _ => Nat.add_comm 1 x)

/-- Advancing one month advances the month index by one. -/
lemma monthIdx_addMonths1 (d : Date) (_h1 : 1 ≤ d.month) (_h2 : d.month ≤ 12) :
    monthIdx (addMonths1 d) = monthIdx d + 1 := by
  unfold addMonths1 monthIdx
  split <;> dsimp only <;> omega

/-- Advancing one month preserves month validity. -/
lemma addMonths1_month_bounds (d : Date) (h2 : d.month ≤ 12) :
    1 ≤ (addMonths1 d).month ∧ (addMonths1 d).month ≤ 12 := by
  unfold addMonths1
  split <;> dsimp only <;> omega

/-- The monthly walk advances the month index by exactly its step count and
keeps the month valid. -/
lemma walkDate_props : ∀ (k : Nat) (d : Date), 1 ≤ d.month → d.month ≤ 12 →
    monthIdx (walkDate d k) = monthIdx d + k ∧
      1 ≤ (walkDate d k).month ∧ (walkDate d k).month ≤ 12 := by
  intro k
  induction k with
  | zero =>
    intro d h1 h2
    exact ⟨rfl, h1, h2⟩
  | succ n ih =>
    intro d h1 h2
    have hb := addMonths1_month_bounds d h2
    have hm := monthIdx_addMonths1 d h1 h2
    have hi := ih (addMonths1 d) hb.1 hb.2
    refine ⟨?_, hi.2.1, hi.2.2⟩
    show monthIdx (walkDate (addMonths1 d) n) = monthIdx d + (n + 1)
    rw [hi.1, hm]
    omega

/-- A strictly larger month index means the date is past the other one. -/
lemma not_dateLe_of_monthIdx_lt (a b : Date) (ha1 : 1 ≤ a.month)
    (ha2 : a.month ≤ 12) (hb1 : 1 ≤ b.month) (hb2 : b.month ≤ 12)
    (h : monthIdx b < monthIdx a) : ¬ dateLe a b := by
  unfold dateLe monthIdx at *
  omega

/-- A date that is past another one has at least its month index. -/
lemma monthIdx_le_of_not_dateLe (a b : Date) (ha1 : 1 ≤ a.month)
    (ha2 : a.month ≤ 12) (hb1 : 1 ≤ b.month) (hb2 : b.month ≤ 12)
    (h : ¬ dateLe a b) : monthIdx b ≤ monthIdx a := by
  unfold dateLe monthIdx at *
  omega

/-- `get_or_create` creates (appends) exactly when no row carries the due
date. -/
lemma getOrCreate_of_not_mem (l : Lease) (db : List RentPayment) (due : Date)
    (h : ∀ r ∈ db, r.due_date ≠ due) :
    getOrCreate l db due = db ++ [mkPendingRow l due] := by
  unfold getOrCreate
  rw [if_neg]
  intro hc
  rw [List.any_eq_true] at hc
  obtain ⟨r, hr, he⟩ := hc
  exact h r hr (by simpa using he)

/-- The loop step produces nothing once the walk has passed `end_date`. -/
lemma scheduleStep_none (l : Lease) (cur : Date)
    (h : ¬ dateLe cur l.end_date) : scheduleStep l cur = none := by
  unfold scheduleStep
  rw [if_neg h]

/-- What a created row of the loop step looks like. -/
lemma scheduleStep_some (l : Lease) (cur : Date) (r : RentPayment)
    (h : scheduleStep l cur = some r) :
    r = mkPendingRow l ⟨cur.year, cur.month, min l.rent_due_day 28⟩ ∧
    dateLe cur l.end_date ∧
    dateLe l.start_date r.due_date ∧ dateLe r.due_date l.end_date ∧
    monthIdx r.due_date = monthIdx cur := by
  unfold scheduleStep at h
  by_cases h1 : dateLe cur l.end_date
  · rw [if_pos h1] at h
    by_cases h2 : dateLe l.start_date
          (⟨cur.year, cur.month, min l.rent_due_day 28⟩ : Date) ∧
        dateLe (⟨cur.year, cur.month, min l.rent_due_day 28⟩ : Date) l.end_date
    · rw [if_pos h2] at h
      obtain rfl := (Option.some.injEq _ _).mp h
      exact ⟨rfl, h1, h2.1, h2.2, rfl⟩
    · rw [if_neg h2] at h
      cases h
  · rw [if_neg h1] at h
    cases h

/-- The loop, started on a table whose rows all lie in months before the
walk, appends exactly the closed-form step results of the walk. -/
lemma scheduleLoop_eq (l : Lease) (hE1 : 1 ≤ l.end_date.month)
    (hE2 : l.end_date.month ≤ 12) :
    ∀ (fuel : Nat) (cur : Date) (db : List RentPayment),
      1 ≤ cur.month → cur.month ≤ 12 →
      (∀ r ∈ db, monthIdx r.due_date < monthIdx cur) →
      scheduleLoop l fuel cur db
        = db ++ (List.range fuel).filterMap
            (fun k => scheduleStep l (walkDate cur k)) := by
  intro fuel
  induction fuel with
  | zero =>
    intro cur db _ _ _
    simp [scheduleLoop]
  | succ n ih =>
    intro cur db hc1 hc2 hdb
    by_cases hle : dateLe cur l.end_date
    · have hmb := addMonths1_month_bounds cur hc2
      have hmi := monthIdx_addMonths1 cur hc1 hc2
      simp only [scheduleLoop]
      rw [if_pos hle]
      by_cases hin : dateLe l.start_date
            (⟨cur.year, cur.month, min l.rent_due_day 28⟩ : Date) ∧
          dateLe (⟨cur.year, cur.month, min l.rent_due_day 28⟩ : Date)
            l.end_date
      · have hne : ∀ r ∈ db, r.due_date
            ≠ (⟨cur.year, cur.month, min l.rent_due_day 28⟩ : Date) := by
          intro r hr heq
          have hlt := hdb r hr
          rw [heq] at hlt
          exact absurd hlt (by unfold monthIdx; dsimp only; omega)
        rw [if_pos hin, getOrCreate_of_not_mem l db _ hne]
        rw [ih (addMonths1 cur)
          (db ++ [mkPendingRow l ⟨cur.year, cur.month, min l.rent_due_day 28⟩])
          hmb.1 hmb.2 ?_]
        · have hf0 : scheduleStep l (walkDate cur 0)
              = some (mkPendingRow l
                  ⟨cur.year, cur.month, min l.rent_due_day 28⟩) := by
            show scheduleStep l cur = _
            unfold scheduleStep
            rw [if_pos hle, if_pos hin]
          rw [range_succ_shift, List.filterMap_cons]
          simp only [hf0, List.filterMap_map]
          rw [List.append_assoc, List.singleton_append]
          rfl
        · intro r hr
          rcases List.mem_append.mp hr with h2 | h2
          · have := hdb r h2
            rw [hmi]
            omega
          · rw [List.mem_singleton.mp h2, hmi]
            have : monthIdx
                (⟨cur.year, cur.month, min l.rent_due_day 28⟩ : Date)
                = monthIdx cur := rfl
            unfold mkPendingRow
            dsimp only
            omega
      · rw [if_neg hin]
        rw [ih (addMonths1 cur) db hmb.1 hmb.2 ?_]
        · have hf0 : scheduleStep l (walkDate cur 0) = none := by
            show scheduleStep l cur = none
            unfold scheduleStep
            rw [if_pos hle, if_neg hin]
          rw [range_succ_shift, List.filterMap_cons]
          simp only [hf0, List.filterMap_map]
          rfl
        · intro r hr
          have := hdb r hr
          rw [hmi]
          omega
    · have hend : monthIdx l.end_date ≤ monthIdx cur :=
        monthIdx_le_of_not_dateLe cur l.end_date hc1 hc2 hE1 hE2 hle
      have hnil : (List.range (n + 1)).filterMap
          (fun k => scheduleStep l (walkDate cur k)) = [] := by
        rw [List.filterMap_eq_nil_iff]
        intro k hk
        rcases Nat.eq_zero_or_pos k with rfl | hkpos
        · exact scheduleStep_none l cur hle
        · have hw := walkDate_props k cur hc1 hc2
          refine scheduleStep_none l _ ?_
          refine not_dateLe_of_monthIdx_lt _ _ hw.2.1 hw.2.2 hE1 hE2 ?_
          rw [hw.1]
          omega
      simp only [scheduleLoop]
      rw [if_neg hle, hnil, List.append_nil]

/-! ### C3: shape of the generated schedule -/

/-- C3 counterexample: for the active lease `exL3` (start 2024-01-15, end
2024-03-31, due day 1), January 2024 is a calendar month between `start_date`
and `end_date`, yet the generated schedule contains no row for it — only
2024-02-01 and 2024-03-01 — because the clamped January due date 2024-01-01
falls before `start_date`.  So "exactly one row per calendar month in range"
fails as stated. -/
theorem c3_per_month_counterexample :
    monthIdx exL3.start_date ≤ monthIdx ⟨2024, 1, 1⟩ ∧
    monthIdx (⟨2024, 1, 1⟩ : Date) ≤ monthIdx exL3.end_date ∧
    (exL3.generate_rent_schedule []).map (fun r => r.due_date)
      = [⟨2024, 2, 1⟩, ⟨2024, 3, 1⟩] ∧
    (∀ r ∈ exL3.generate_rent_schedule [], r.due_date.month ≠ 1) := by
  decide

/-- C3 (amended): for an `active`/`pending` lease with calendar-valid term
months, the generated schedule (on an empty table) is exactly the closed-form
monthly enumeration `scheduleSpec`: one row per step of the monthly walk from
`start_date` whose clamped due date (day `min(rent_due_day, 28)`, hence
always ≤ 28) lies within `[start_date, end_date]`; every row carries
`amount_due = rent_amount`, status `pending`, and a due date in range; months
strictly increase, so no calendar month receives two rows.  The spec's
example (rent 1000, due day 1, 2024-01-01..2024-03-31) yields exactly
2024-01-01, 2024-02-01, 2024-03-01, each with amount 1000. -/
theorem c3_schedule_characterization (l : Lease)
    (hst : l.status = .active ∨ l.status = .pending)
    (hS1 : 1 ≤ l.start_date.month) (hS2 : l.start_date.month ≤ 12)
    (hE1 : 1 ≤ l.end_date.month) (hE2 : l.end_date.month ≤ 12) :
    l.generate_rent_schedule [] = scheduleSpec l ∧
    (∀ r ∈ l.generate_rent_schedule [],
      r.amount_due = l.rent_amount ∧ r.due_date.day = min l.rent_due_day 28 ∧
      dateLe l.start_date r.due_date ∧ dateLe r.due_date l.end_date ∧
      r.status = .pending) ∧
    List.Pairwise (fun a b => monthIdx a.due_date < monthIdx b.due_date)
      (l.generate_rent_schedule []) ∧
    (exLease.generate_rent_schedule []).map
        (fun r => (r.due_date, r.amount_due))
      = [(⟨2024, 1, 1⟩, (1000 : Money)), (⟨2024, 2, 1⟩, 1000),
          (⟨2024, 3, 1⟩, 1000)] := by
  have hgen : l.generate_rent_schedule [] = scheduleSpec l := by
    unfold Lease.generate_rent_schedule scheduleSpec
    rw [if_pos hst]
    have h := scheduleLoop_eq l hE1 hE2
      (monthIdx l.end_date + 1 - monthIdx l.start_date) l.start_date []
      hS1 hS2 (by intro r hr; cases hr)
    rw [List.nil_append] at h
    exact h
  refine ⟨hgen, ?_, ?_, by decide⟩
  · intro r hr
    rw [hgen] at hr
    unfold scheduleSpec at hr
    obtain ⟨k, hk, hstep⟩ := List.mem_filterMap.mp hr
    obtain ⟨hrEq, hcur, hs1, hs2, hidx⟩ := scheduleStep_some l _ r hstep
    exact ⟨by rw [hrEq]; rfl, by rw [hrEq]; rfl, hs1, hs2, by rw [hrEq]; rfl⟩
  · rw [hgen]
    unfold scheduleSpec
    rw [List.pairwise_filterMap]
    refine (List.pairwise_lt_range _).imp ?_
    intro a b hab r hr r' hr'
    have h1 := (scheduleStep_some l _ r hr).2.2.2.2
    have h2 := (scheduleStep_some l _ r' hr').2.2.2.2
    have w1 := walkDate_props a l.start_date hS1 hS2
    have w2 := walkDate_props b l.start_date hS1 hS2
    rw [h1, h2, w1.1, w2.1]
    omega

/-- Witness for C3 (amended) at the spec's example lease. -/
theorem c3_schedule_witness :
    exLease.generate_rent_schedule [] = scheduleSpec exLease ∧
    (exLease.generate_rent_schedule []).map
        (fun r => (r.due_date, r.amount_due))
      = [(⟨2024, 1, 1⟩, (1000 : Money)), (⟨2024, 2, 1⟩, 1000),
          (⟨2024, 3, 1⟩, 1000)] :=
  ⟨(c3_schedule_characterization exLease (Or.inl rfl) (by decide) (by decide)
      (by decide) (by decide)).1,
   (c3_schedule_characterization exLease (Or.inl rfl) (by decide) (by decide)
      (by decide) (by decide)).2.2.2⟩

/-! ### C6: idempotence of schedule generation -/

/-- The loop only appends `pending` rows, so filtering the non-pending rows
of its output gives back the non-pending rows of its input. -/
lemma scheduleLoop_filter (l : Lease) :
    ∀ (fuel : Nat) (cur : Date) (db : List RentPayment),
      (scheduleLoop l fuel cur db).filter
          (fun r => decide (r.status ≠ .pending))
        = db.filter (fun r => decide (r.status ≠ .pending)) := by
  intro fuel
  induction fuel with
  | zero =>
    intro cur db
    rfl
  | succ n ih =>
    intro cur db
    simp only [scheduleLoop]
    split
    · rw [ih]
      split
      · unfold getOrCreate
        split
        · rfl
        · rw [List.filter_append]
          rw [show List.filter (fun r => decide (r.status ≠ PaymentStatus.pending))
              [mkPendingRow l ⟨cur.year, cur.month, min l.rent_due_day 28⟩]
              = [] from rfl]
          rw [List.append_nil]
      · rfl
    · rfl

/-- Filtering twice with the same predicate filters once. -/
lemma filter_idem {α : Type} (p : α → Bool) (xs : List α) :
    (xs.filter p).filter p = xs.filter p := by
  induction xs with
  | nil => rfl
  | cons x xs ih =>
    by_cases h : p x = true
    · simp [List.filter_cons, h, ih]
    · simp [List.filter_cons, h, ih]

/-- C6: `generate_rent_schedule` is idempotent on the lease's rows — a second
run returns exactly the rows of the first run: it deletes and re-creates the
same pending rows (same `(lease, due_date)` keys via `get_or_create`) and
never touches paid/partial rows. -/
theorem c6_generate_schedule_idempotent (l : Lease) (db : List RentPayment) :
    l.generate_rent_schedule (l.generate_rent_schedule db)
      = l.generate_rent_schedule db := by
  by_cases hst : l.status = .active ∨ l.status = .pending
  · unfold Lease.generate_rent_schedule
    simp only [if_pos hst]
    rw [scheduleLoop_filter, filter_idem]
  · unfold Lease.generate_rent_schedule
    simp only [if_neg hst]

end LeaseLog
